import Mathlib

/-!
Verification development for the experimental oapi-codegen code generator.

The Go sources are shallowly embedded: pure Go functions become Lean
functions over explicit data, Go maps become association lists (value
updates) or membership lists (boolean sets), and external collaborators
(the `text/template` engine, the embedded template filesystem) become
injected function parameters.  Components whose implementation is not part
of the available sources (the name resolver, the composition resolver and
the operation gatherer, which are exercised only through their tests) are
modelled from the specification; each such definition carries a doc
comment starting with `Modelled from the spec:`.
-/

/-! ## Go string primitives

Strings are compared character-wise, mirroring Go's byte-wise comparison
of UTF-8 strings (`strings.HasPrefix`, `sort.Strings`). -/

/-- Character-list version of Go's `strings.HasPrefix`. -/
def charsStartWith : List Char → List Char → Bool
  | _, [] => true
  | [], _ :: _ => false
  | a :: as, b :: bs => a == b && charsStartWith as bs

/-- Go's `strings.HasPrefix s pre`: does `s` start with `pre`? -/
def strStartsWith (s p : String) : Bool := charsStartWith s.data p.data

/-- Lexicographic less-or-equal on character lists, mirroring Go's
byte-wise string comparison used by `sort.Strings`. -/
def charsLe : List Char → List Char → Bool
  | [], _ => true
  | _ :: _, [] => false
  | a :: as, b :: bs =>
      if a.toNat < b.toNat then true
      else if b.toNat < a.toNat then false
      else charsLe as bs

/-- Go's string less-or-equal (lexicographic). -/
def strLe (a b : String) : Bool := charsLe a.data b.data

/-- The propositional form of `strLe`, used as the sorting relation. -/
def StrLeR (a b : String) : Prop := strLe a b = true

instance : DecidableRel StrLeR := fun a b => by unfold StrLeR; infer_instance

/-- Go's `sort.Strings`: modelled as insertion sort over lexicographic order. -/
def sortStrings (l : List String) : List String := l.insertionSort StrLeR

/-! ## Operation descriptors and `isSimpleOperation` (client generator)

Only the fields the embedded functions read are modelled.  In Go
`HasTypedBody` is a method of `OperationDescriptor`; its implementation is
outside the modelled sources, so its result is carried as a field. -/

/-- One content entry of a response (`ResponseContentDescriptor`). -/
structure ResponseContentDescriptor where
  ContentType : String
  IsJSON : Bool

/-- One response of an operation (`ResponseDescriptor`). -/
structure ResponseDescriptor where
  StatusCode : String
  Contents : List ResponseContentDescriptor

/-- An operation (`OperationDescriptor`), restricted to the fields that
`isSimpleOperation` reads. -/
structure OperationDescriptor where
  HasBody : Bool
  HasTypedBody : Bool
  Responses : List ResponseDescriptor

/-- Embedding of `isSimpleOperation` from the client generator: an
operation with a single JSON success response type.  The Go code's three
separate length checks (`len(successResponses) != 1`, `len(Contents) == 0`,
`len(Contents) != 1`) appear here as singleton-list pattern matches. -/
def isSimpleOperation (op : OperationDescriptor) : Bool :=
  if op.Responses.length = 0 then false
  else if op.HasBody && !op.HasTypedBody then false
  else
    match op.Responses.filter (fun r => strStartsWith r.StatusCode "2") with
    | [success] =>
        match success.Contents with
        | [content] => content.IsJSON
        | _ => false
    | _ => false

/-! ## CodegenContext (codegen_context.go)

Go's `map[string]string` becomes an association list where assignment
replaces the value of an existing key, and `map[string]bool` becomes a
membership list. -/

/-- Go map assignment `m[k] = v` on an association list: replaces the
value of an existing key, otherwise appends the binding. -/
def mapSet : List (String × String) → String → String → List (String × String)
  | [], k, v => [(k, v)]
  | (k9, v9) :: rest, k, v =>
      if k9 = k then (k, v) :: rest else (k9, v9) :: mapSet rest k v

/-- Go map read `m[k]` on an association list; a missing key yields the
zero value `""`. -/
def mapLookup : List (String × String) → String → String
  | [], _ => ""
  | (k9, v9) :: rest, k => if k9 = k then v9 else mapLookup rest k

/-- Go set insertion `m[k] = true` on a membership list. -/
def setAdd (s : List String) (k : String) : List String :=
  if k ∈ s then s else s ++ [k]

/-- The mutable registration state of `CodegenContext`, scoped to one
generation run. -/
structure CodegenContext where
  imports : List (String × String)
  helpers : List String
  params : List String
  customTypes : List String

/-- `NewCodegenContext` creates an empty context. -/
def NewCodegenContext : CodegenContext :=
  { imports := [], helpers := [], params := [], customTypes := [] }

/-- `AddImport` records an import path needed by the generated code. -/
def CodegenContext.AddImport (c : CodegenContext) (path : String) : CodegenContext :=
  if path ≠ "" then { c with imports := mapSet c.imports path "" } else c

/-- `AddImportAlias` records an import path with an alias. -/
def CodegenContext.AddImportAlias (c : CodegenContext) (path al : String) : CodegenContext :=
  if path ≠ "" then { c with imports := mapSet c.imports path al } else c

/-- `NeedHelper` records that a helper template is needed. -/
def CodegenContext.NeedHelper (c : CodegenContext) (name : String) : CodegenContext :=
  if name ≠ "" then { c with helpers := setAdd c.helpers name } else c

/-- Modelled from the spec: `templates.ParamStyleKey` lives outside the
modelled sources; it is reconstructed from the key examples
`"style_simple"` and `"bind_form_explode"` documented on `CodegenContext`. -/
def paramStyleKey (pre style : String) (explode : Bool) : String :=
  pre ++ style ++ (if explode then "_explode" else "")

/-- `NeedParam` records both the style (serialization) and bind
(deserialization) keys for a param style/explode combination. -/
def CodegenContext.NeedParam (c : CodegenContext) (style : String) (explode : Bool) :
    CodegenContext :=
  let styleKey := paramStyleKey "style_" style explode
  let bindKey := paramStyleKey "bind_" style explode
  { c with params := setAdd (setAdd c.params styleKey) bindKey }

/-- `NeedCustomType` records that a custom type template is needed. -/
def CodegenContext.NeedCustomType (c : CodegenContext) (name : String) : CodegenContext :=
  if name ≠ "" then { c with customTypes := setAdd c.customTypes name } else c

/-- `RequiredHelpers` returns the sorted list of helper template names. -/
def CodegenContext.RequiredHelpers (c : CodegenContext) : List String :=
  sortStrings c.helpers

/-- `RequiredParams` returns the sorted list of param style keys. -/
def CodegenContext.RequiredParams (c : CodegenContext) : List String :=
  sortStrings c.params

/-- `RequiredCustomTypes` returns the sorted list of custom type template
names. -/
def CodegenContext.RequiredCustomTypes (c : CodegenContext) : List String :=
  sortStrings c.customTypes

/-! ## Struct tag generation (struct tag generator source file) -/

/-- The data available to struct tag templates (`StructTagInfo`). -/
structure StructTagInfo where
  FieldName : String
  IsOptional : Bool

/-- A single configured struct tag (`StructTagTemplate`): a name and an
unparsed template string. -/
structure StructTagTemplate where
  Name : String
  Template : String

/-- Struct tag configuration (`StructTagsConfig`). -/
structure StructTagsConfig where
  Tags : List StructTagTemplate

/-- A parsed `text/template`, modelled as its rendering behaviour: given
the field info it either renders a string or fails (Go `Execute` error). -/
def TemplateFn : Type := StructTagInfo → Option String

/-- A parsed tag template (`tagTemplate`): name plus parsed template. -/
structure TagTemplate where
  name : String
  tmpl : TemplateFn

/-- The struct tag generator (`StructTagGenerator`). -/
structure StructTagGenerator where
  templates : List TagTemplate

/-- Embedding of `NewStructTagGenerator`.  The Go `text/template` parser is
an external collaborator, injected as `engine`; a `none` result is a parse
error.  Invalid templates are silently skipped, the rest are kept in
order. -/
def NewStructTagGenerator (engine : String → Option TemplateFn)
    (config : StructTagsConfig) : StructTagGenerator :=
  { templates := config.Tags.filterMap fun tag =>
      match engine tag.Template with
      | none => none
      | some t => some { name := tag.Name, tmpl := t } }

/-- The `tags` local of `GenerateTags`: every parsed template is rendered,
those that fail or render empty are skipped, the rest become
`name:"value"` fragments in order. -/
def renderedTags (g : StructTagGenerator) (info : StructTagInfo) : List String :=
  g.templates.filterMap fun t =>
    match t.tmpl info with
    | none => none
    | some value =>
        if value ≠ "" then some (t.name ++ ":" ++ "\"" ++ value ++ "\"") else none

/-- Embedding of `StructTagGenerator.GenerateTags`: joins the surviving
rendered fragments; the empty string results when nothing survives. -/
def StructTagGenerator.GenerateTags (g : StructTagGenerator) (info : StructTagInfo) : String :=
  if g.templates.isEmpty then ""
  else if (renderedTags g info).isEmpty then ""
  else "`" ++ String.intercalate " " (renderedTags g info) ++ "`"

/-- The sorted tag-name sequence rendered by `FormatTagsMap`. -/
def tagNames (tags : List (String × String)) : List String :=
  sortStrings (tags.map Prod.fst)

/-- Embedding of `FormatTagsMap`: formats a tag map into a struct tag
string, sorting tag names for deterministic output. -/
def FormatTagsMap (tags : List (String × String)) : String :=
  if tags.isEmpty then ""
  else
    let parts := (tagNames tags).map fun name =>
      name ++ ":" ++ "\"" ++ mapLookup tags name ++ "\""
    "`" ++ String.intercalate " " parts ++ "`"

/-! ## GenerateRuntime (runtime generator source file)

The three sub-package generators (`generateRuntimeTypes`,
`generateRuntimeParams`, `generateRuntimeHelpers`) render templates from
the embedded template filesystem, an external collaborator; they are
injected as parameters.  `generateRuntimeParams` receives the import path
of the types sub-package, exactly as in the source. -/

/-- The generated Go source for each runtime sub-package (`RuntimeOutput`). -/
structure RuntimeOutput where
  Params : String
  Types : String
  Helpers : String

/-- Embedding of `GenerateRuntime`: rejects an empty base import path,
then runs the three sub-package generators in source order, passing
`baseImportPath + "/types"` to the params generator. -/
def GenerateRuntime (genTypes : Except String String)
    (genParams : String → Except String String)
    (genHelpers : Except String String)
    (baseImportPath : String) : Except String RuntimeOutput :=
  if baseImportPath = "" then Except.error "base import path is required"
  else
    match genTypes with
    | Except.error e => Except.error e
    | Except.ok typesCode =>
        match genParams (baseImportPath ++ "/types") with
        | Except.error e => Except.error e
        | Except.ok paramsCode =>
            match genHelpers with
            | Except.error e => Except.error e
            | Except.ok helpersCode =>
                Except.ok { Params := paramsCode, Types := typesCode, Helpers := helpersCode }

/-! ## Name Resolver (modelled from the spec)

The name resolver's implementation is not among the available sources —
only generated-output tests exercise it — so it is modelled from spec
§4.3: overrides, then bare mangled names for component schemas, then
operationID-derived names for inline schemas, then 1-based numeric
suffixes for within-section base-name collisions in declaration order. -/

/-- Modelled from the spec: the independent naming sections of §3. -/
inductive NamingSection where
  | componentSchema
  | parameterSection
  | requestBody
  | response
  | inline
deriving DecidableEq

/-- Modelled from the spec: the naming-relevant part of a
`SchemaDescriptor` — its section, document-derived raw name, owning
operation and role suffix. -/
structure NameDescriptor where
  sect : NamingSection
  rawName : Option String
  operationID : String
  roleSuffix : String

/-- Modelled from the spec: the mangled identifier (§ glossary) — the
casing rule that makes a document name a valid exported Go identifier;
only the initial upper-casing matters for the verified properties. -/
def mangleName (s : String) : String :=
  match s.data with
  | [] => ""
  | c :: cs => String.mk (c.toUpper :: cs)

/-- Modelled from the spec: the short content-type token of §4.3 step 4 —
`application/json`, `application/merge-patch+json` and
`application/json-patch+json` all map to `"JSON"`; the spec specifies no
other mapping, so other media types keep a token derived from the media
type itself. -/
def contentTypeShortToken (ct : String) : String :=
  if ct = "application/json" || ct = "application/merge-patch+json"
      || ct = "application/json-patch+json" then "JSON"
  else mangleName ct

/-- Modelled from the spec: the base name of §4.3 steps 2–3 — a named
component schema keeps its bare mangled name; every other descriptor
derives its name from the operationID plus a role suffix. -/
def baseName (d : NameDescriptor) : String :=
  match d.sect, d.rawName with
  | NamingSection.componentSchema, some n => mangleName n
  | _, _ => mangleName d.operationID ++ d.roleSuffix

/-- Modelled from the spec: the number of descriptors in `ds` that live in
`d`'s naming section and share the base name `b` (§4.3 steps 4–5:
only within-section collisions are disambiguated). -/
def countSameBase (ds : List NameDescriptor) (d : NameDescriptor) (b : String) : Nat :=
  (ds.filter fun e => decide (e.sect = d.sect) && decide (baseName e = b)).length

/-- Modelled from the spec: one pass of §4.3 step 4 — `ds` is the whole
document in declaration order, `seen` the already-named part; a base name
that collides anywhere in its section gets a 1-based occurrence suffix,
so the first colliding entry gets suffix 1, not no-suffix. -/
def resolveNamesAux (ds : List NameDescriptor) (seen : List NameDescriptor) :
    List NameDescriptor → List String
  | [] => []
  | d :: rest =>
      let b := baseName d
      let name :=
        if 2 ≤ countSameBase ds d b then b ++ Nat.repr (countSameBase seen d b + 1)
        else b
      name :: resolveNamesAux ds (seen ++ [d]) rest

/-- Modelled from the spec: the name resolver — assigns every descriptor
its final name in declaration order. -/
def resolveNames (ds : List NameDescriptor) : List String := resolveNamesAux ds [] ds

/-- Modelled from the spec: the name descriptor of a request-body content
entry — requestBody section, operation-derived role suffix built from the
content-type short token. -/
def requestBodyDescriptor (opID : String) (raw : Option String) (ct : String) :
    NameDescriptor :=
  { sect := NamingSection.requestBody
    rawName := raw
    operationID := opID
    roleSuffix := contentTypeShortToken ct ++ "Request" }

/-- Modelled from the spec: the name descriptor of an inline response
content entry — response section, operationID-derived role suffix built
from the content-type short token (§4.3 step 3: role suffixes such as
"JSONResponse", plus the status code when several are needed). -/
def responseDescriptor (opID : String) (raw : Option String) (ct : String) :
    NameDescriptor :=
  { sect := NamingSection.response
    rawName := raw
    operationID := opID
    roleSuffix := contentTypeShortToken ct ++ "Response" }

/-- Modelled from the spec: the name descriptor of a named component
schema. -/
def componentSchemaDescriptor (raw : String) : NameDescriptor :=
  { sect := NamingSection.componentSchema
    rawName := some raw
    operationID := ""
    roleSuffix := "" }

/-! ## Composition Resolver (modelled from the spec)

The composition resolver's implementation is not among the available
sources, so the `oneOf`/`anyOf` classification is modelled from spec
§4.2: the two-member nullable pattern collapses to a nullable wrapper,
everything else becomes a union whose members are deduplicated by
resolved target identity (structural path). -/

/-- Modelled from the spec: one member of a `oneOf`/`anyOf` — the literal
`null` type, a reference, an inline object, or some other inline schema;
non-null members carry their structural path, which is their identity. -/
inductive SchemaMember where
  | nullType
  | ref (path : String)
  | inlineObject (path : String)
  | primitive (path : String)
deriving DecidableEq

/-- Modelled from the spec: the structural-path identity of a member
(§4.2: deduplication compares member schema identity by path). -/
def memberPath : SchemaMember → String
  | SchemaMember.nullType => "null"
  | SchemaMember.ref p => p
  | SchemaMember.inlineObject p => p
  | SchemaMember.primitive p => p

/-- Modelled from the spec: is this member a reference or an inline
object (the non-null side of the nullable pattern)? -/
def isRefOrInlineObject : SchemaMember → Bool
  | SchemaMember.ref _ => true
  | SchemaMember.inlineObject _ => true
  | _ => false

/-- Modelled from the spec: the closed shape variants of §3. -/
inductive Shape where
  | structShape
  | aliasOf (target : String)
  | arrayOf (elem : String)
  | unionWrapper (members : List SchemaMember)
  | nullableWrapper (inner : SchemaMember)
deriving DecidableEq

/-- Modelled from the spec: drop every member whose structural path was
already seen, keeping the first occurrence (§4.2 duplicate suppression). -/
def dedupMembersAux (seen : List String) : List SchemaMember → List SchemaMember
  | [] => []
  | m :: rest =>
      if memberPath m ∈ seen then dedupMembersAux seen rest
      else m :: dedupMembersAux (memberPath m :: seen) rest

/-- Modelled from the spec: member deduplication before naming. -/
def dedupMembers (ms : List SchemaMember) : List SchemaMember := dedupMembersAux [] ms

/-- Modelled from the spec: §4.2 classification of a `oneOf`/`anyOf`
member list — exactly two members, one the literal `null` type and the
other a reference or inline object, collapse to `NullableWrapper(inner)`;
every other list becomes a deduplicated `UnionWrapper`. -/
def resolveOneOf (members : List SchemaMember) : Shape :=
  match members with
  | [m, SchemaMember.nullType] =>
      if isRefOrInlineObject m then Shape.nullableWrapper m
      else Shape.unionWrapper (dedupMembers members)
  | [SchemaMember.nullType, m] =>
      if isRefOrInlineObject m then Shape.nullableWrapper m
      else Shape.unionWrapper (dedupMembers members)
  | _ => Shape.unionWrapper (dedupMembers members)

/-! ## Sequential media types and item schemas (modelled from the spec)

The operation gatherer and the content-type matcher are not among the
available sources; the default sequential media types and the
envelope/item split are modelled from spec §4.4 and the matcher's test
table. -/

/-- Modelled from the spec: the sequential media types recognised by the
default content-type matcher. -/
def sequentialMediaTypes : List String :=
  ["text/event-stream", "application/jsonl", "application/x-ndjson",
   "application/json-seq", "multipart/mixed"]

/-- Modelled from the spec: `IsSequentialMediaType` — membership in the
sequential media type table. -/
def IsSequentialMediaType (contentType : String) : Bool :=
  sequentialMediaTypes.contains contentType

/-- Modelled from the spec: a schema occurrence with its structural path
(its identity) and its declared property names. -/
structure SchemaInfo where
  path : String
  properties : List String
deriving DecidableEq

/-- Modelled from the spec: one declared content entry of a body or
response — media type, structural base path, the envelope schema's
declared properties, and the optional `itemSchema`'s properties. -/
structure DeclaredContent where
  contentType : String
  basePath : String
  schemaProperties : List String
  itemProperties : Option (List String)

/-- Modelled from the spec: a built body/response content descriptor —
the envelope schema and the independent item schema binding. -/
structure ContentDescriptor where
  ContentType : String
  IsSequential : Bool
  Schema : SchemaInfo
  ItemSchema : Option SchemaInfo

/-- Modelled from the spec: the operation descriptor builder's per-content
step (§4.4) — the media type is matched against the sequential table; the
declared `itemSchema`, when present under a sequential media type, becomes
a second descriptor at its own structural path, never merged with the
envelope. -/
def buildContentDescriptor (decl : DeclaredContent) : ContentDescriptor :=
  let seq := IsSequentialMediaType decl.contentType
  { ContentType := decl.contentType
    IsSequential := seq
    Schema := { path := decl.basePath ++ "/schema", properties := decl.schemaProperties }
    ItemSchema :=
      if seq then
        decl.itemProperties.map fun props =>
          { path := decl.basePath ++ "/itemSchema", properties := props }
      else none }

/-! ## Order and string lemmas -/

theorem charsLe_total : ∀ l m : List Char, charsLe l m = true ∨ charsLe m l = true
  | [], _ => Or.inl rfl
  | _ :: _, [] => Or.inr rfl
  | a :: as, b :: bs => by
      by_cases h1 : a.toNat < b.toNat
      · left; simp [charsLe, h1]
      · by_cases h2 : b.toNat < a.toNat
        · right; simp [charsLe, h2]
        · rcases charsLe_total as bs with h | h
          · left; simp [charsLe, h1, h2, h]
          · right; simp [charsLe, h1, h2, h]

theorem charsLe_trans : ∀ l m n : List Char,
    charsLe l m = true → charsLe m n = true → charsLe l n = true
  | [], _, _, _, _ => rfl
  | _ :: _, [], _, h, _ => by simp [charsLe] at h
  | _ :: _, _ :: _, [], _, h2 => by simp [charsLe] at h2
  | a :: as, b :: bs, c :: cs, h1, h2 => by
      simp only [charsLe] at h1 h2 ⊢
      by_cases hab : a.toNat < b.toNat
      · by_cases hbc : b.toNat < c.toNat
        · rw [if_pos (show a.toNat < c.toNat by omega)]
        · by_cases hcb : c.toNat < b.toNat
          · rw [if_neg hbc, if_pos hcb] at h2; exact absurd h2 (by simp)
          · rw [if_pos (show a.toNat < c.toNat by omega)]
      · rw [if_neg hab] at h1
        by_cases hba : b.toNat < a.toNat
        · rw [if_pos hba] at h1; exact absurd h1 (by simp)
        · rw [if_neg hba] at h1
          by_cases hbc : b.toNat < c.toNat
          · rw [if_pos (show a.toNat < c.toNat by omega)]
          · rw [if_neg hbc] at h2
            by_cases hcb : c.toNat < b.toNat
            · rw [if_pos hcb] at h2; exact absurd h2 (by simp)
            · rw [if_neg hcb] at h2
              rw [if_neg (show ¬ a.toNat < c.toNat by omega),
                if_neg (show ¬ c.toNat < a.toNat by omega)]
              exact charsLe_trans as bs cs h1 h2

theorem charsLe_antisymm : ∀ l m : List Char,
    charsLe l m = true → charsLe m l = true → l = m
  | [], [], _, _ => rfl
  | [], _ :: _, _, h2 => by simp [charsLe] at h2
  | _ :: _, [], h1, _ => by simp [charsLe] at h1
  | a :: as, b :: bs, h1, h2 => by
      simp only [charsLe] at h1 h2
      by_cases hab : a.toNat < b.toNat
      · rw [if_neg (show ¬ b.toNat < a.toNat by omega), if_pos hab] at h2
        exact absurd h2 (by simp)
      · rw [if_neg hab] at h1
        by_cases hba : b.toNat < a.toNat
        · rw [if_pos hba] at h1; exact absurd h1 (by simp)
        · rw [if_neg hba] at h1
          rw [if_neg hba, if_neg hab] at h2
          have hn : a.toNat = b.toNat := by omega
          have hc : a = b := Char.ext (UInt32.ext hn)
          rw [hc, charsLe_antisymm as bs h1 h2]

theorem stringDataInj {s t : String} (h : s.data = t.data) : s = t := by
  cases s; cases t; exact congrArg String.mk h

theorem strAppendLeftCancel {a b c : String} (h : a ++ b = a ++ c) : b = c := by
  have hd : a.data ++ b.data = a.data ++ c.data := by
    simpa [String.data_append] using congrArg String.data h
  exact stringDataInj (List.append_cancel_left hd)

theorem strNeAppendOfTailNe (a t : String) (ht : t.length ≠ 0) : a ≠ a ++ t := by
  intro h
  have hl := congrArg String.length h
  rw [String.length_append] at hl
  omega

theorem sortStrings_sorted (l : List String) : (sortStrings l).Sorted StrLeR :=
  @List.sorted_insertionSort String StrLeR _
    ⟨fun a b => charsLe_total a.data b.data⟩
    ⟨fun a b c h1 h2 => charsLe_trans a.data b.data c.data h1 h2⟩ l

theorem sortStrings_perm (l : List String) : (sortStrings l).Perm l :=
  List.perm_insertionSort StrLeR l

theorem sortStrings_eq_of_perm {l m : List String} (h : l.Perm m) :
    sortStrings l = sortStrings m :=
  @List.eq_of_perm_of_sorted String StrLeR
    ⟨fun a b h1 h2 => stringDataInj (charsLe_antisymm a.data b.data h1 h2)⟩ _ _
    (((sortStrings_perm l).trans h).trans (sortStrings_perm m).symm)
    (sortStrings_sorted l) (sortStrings_sorted m)

theorem mapLookup_eq_of_perm (k : String) :
    ∀ {t u : List (String × String)}, t.Perm u → (t.map Prod.fst).Nodup →
      mapLookup t k = mapLookup u k := by
  intro t u h
  induction h with
  | nil => intro _; rfl
  | cons x h ih =>
      intro hnd
      rcases x with ⟨xk, xv⟩
      by_cases hk : xk = k
      · simp [mapLookup, hk]
      · simp only [mapLookup, if_neg hk]
        exact ih (by simpa using (List.nodup_cons.mp (by simpa using hnd)).2)
  | swap x y l =>
      intro hnd
      rcases x with ⟨xk, xv⟩
      rcases y with ⟨yk, yv⟩
      have hxy : yk ≠ xk := by
        simp [List.nodup_cons] at hnd
        exact hnd.1.1
      by_cases h1 : yk = k
      · have h2 : xk ≠ k := fun e => hxy (h1.trans e.symm)
        simp [mapLookup, h1, h2]
      · by_cases h2 : xk = k
        · simp [mapLookup, h1, h2]
        · simp [mapLookup, h1, h2]
  | trans h1 h2 ih1 ih2 =>
      intro hnd
      have hnd2 := (h1.map Prod.fst).nodup hnd
      exact (ih1 hnd).trans (ih2 hnd2)

/-! ## Map/set helper lemmas -/

theorem mapSet_idem : ∀ (m : List (String × String)) (k v : String),
    mapSet (mapSet m k v) k v = mapSet m k v
  | [], k, v => by simp [mapSet]
  | (k9, v9) :: rest, k, v => by
      by_cases h : k9 = k
      · simp [mapSet, h]
      · simp [mapSet, h, mapSet_idem rest k v]

theorem mem_setAdd_self (s : List String) (k : String) : k ∈ setAdd s k := by
  unfold setAdd
  by_cases h : k ∈ s
  · simp [h]
  · simp [h]

theorem mem_setAdd_of_mem {s : List String} {a : String} (k : String) (h : a ∈ s) :
    a ∈ setAdd s k := by
  unfold setAdd
  by_cases hk : k ∈ s <;> simp [hk, h]

theorem setAdd_eq_of_mem {s : List String} {k : String} (h : k ∈ s) : setAdd s k = s := by
  simp [setAdd, h]

theorem setAdd_idem (s : List String) (k : String) : setAdd (setAdd s k) k = setAdd s k :=
  setAdd_eq_of_mem (mem_setAdd_self s k)

/-! ## Member deduplication lemmas -/

theorem dedupMembersAux_nodup : ∀ (ms : List SchemaMember) (seen : List String),
    ((dedupMembersAux seen ms).map memberPath).Nodup ∧
      ∀ p ∈ (dedupMembersAux seen ms).map memberPath, p ∉ seen
  | [], _ => by simp [dedupMembersAux]
  | m :: rest, seen => by
      by_cases h : memberPath m ∈ seen
      · simpa [dedupMembersAux, h] using dedupMembersAux_nodup rest seen
      · have ih := dedupMembersAux_nodup rest (memberPath m :: seen)
        refine ⟨?_, ?_⟩
        · simp only [dedupMembersAux, if_neg h, List.map_cons, List.nodup_cons]
          exact ⟨fun hm => (ih.2 _ hm) (List.mem_cons_self _ _), ih.1⟩
        · intro p hp
          simp only [dedupMembersAux, if_neg h, List.map_cons, List.mem_cons] at hp
          rcases hp with rfl | hp
          · exact h
          · exact fun hs => (ih.2 p hp) (List.mem_cons_of_mem _ hs)

theorem dedupMembersAux_complete : ∀ (ms : List SchemaMember) (seen : List String),
    ∀ m ∈ ms, memberPath m ∈ seen ∨ memberPath m ∈ (dedupMembersAux seen ms).map memberPath
  | [], _ => by simp
  | m :: rest, seen => by
      intro x hx
      rcases List.mem_cons.mp hx with rfl | hx
      · by_cases h : memberPath x ∈ seen
        · exact Or.inl h
        · right; simp [dedupMembersAux, if_neg h]
      · by_cases h : memberPath m ∈ seen
        · rw [show dedupMembersAux seen (m :: rest) = dedupMembersAux seen rest by
            simp [dedupMembersAux, h]]
          exact dedupMembersAux_complete rest seen x hx
        · rcases dedupMembersAux_complete rest (memberPath m :: seen) x hx with hs | hs
          · rcases List.mem_cons.mp hs with he | hs
            · right; simp [dedupMembersAux, if_neg h, he]
            · exact Or.inl hs
          · right; simp [dedupMembersAux, if_neg h]
            right
            simpa using hs

theorem dedupMembers_nodup (ms : List SchemaMember) :
    ((dedupMembers ms).map memberPath).Nodup :=
  (dedupMembersAux_nodup ms []).1

theorem dedupMembers_complete (ms : List SchemaMember) :
    ∀ m ∈ ms, memberPath m ∈ (dedupMembers ms).map memberPath := by
  intro m hm
  rcases dedupMembersAux_complete ms [] m hm with h | h
  · cases h
  · exact h

/-! ## Claim theorems -/

/-- Claim C1: `isSimpleOperation op` returns true if and only if the
operation has at least one response, exactly one response whose status
code starts with "2", that success response has exactly one content
descriptor, that content descriptor's `IsJSON` flag is true, and, when
`HasBody` is true, `HasTypedBody` is also true; in every other case it
returns false. -/
theorem isSimpleOperation_correct (op : OperationDescriptor) :
    isSimpleOperation op = true ↔
      (op.Responses ≠ [] ∧
       (op.HasBody = true → op.HasTypedBody = true) ∧
       ∃ success content,
         op.Responses.filter (fun r => strStartsWith r.StatusCode "2") = [success] ∧
         success.Contents = [content] ∧ content.IsJSON = true) := by
  unfold isSimpleOperation
  constructor
  · intro h
    by_cases h0 : op.Responses.length = 0
    · rw [if_pos h0] at h; exact absurd h (by simp)
    · rw [if_neg h0] at h
      by_cases hb : (op.HasBody && !op.HasTypedBody) = true
      · rw [if_pos hb] at h; exact absurd h (by simp)
      · rw [if_neg hb] at h
        refine ⟨fun hl => h0 (by simp [hl]), ?_, ?_⟩
        · intro hB
          rcases ht : op.HasTypedBody with _ | _
          · exact absurd (by simp [hB, ht]) hb
          · rfl
        · rcases hf : op.Responses.filter (fun r => strStartsWith r.StatusCode "2") with
            _ | ⟨success, rest⟩
          · rw [hf] at h; simp at h
          · rcases rest with _ | ⟨s2, rest2⟩
            · rw [hf] at h
              replace h : (match success.Contents with
                  | [content] => content.IsJSON
                  | _ => false) = true := h
              rcases hc : success.Contents with _ | ⟨content, crest⟩
              · rw [hc] at h; simp at h
              · rcases crest with _ | ⟨c2, crest2⟩
                · rw [hc] at h
                  exact ⟨success, content, hf, hc, by simpa using h⟩
                · rw [hc] at h; simp at h
            · rw [hf] at h; simp at h
  · rintro ⟨hne, hbt, success, content, hf, hc, hj⟩
    have h0 : ¬ op.Responses.length = 0 := fun hl => hne (List.length_eq_zero.mp hl)
    rw [if_neg h0]
    have hb : ¬ (op.HasBody && !op.HasTypedBody) = true := by
      rcases hB : op.HasBody with _ | _
      · simp
      · simp [hbt hB]
    rw [if_neg hb, hf]
    simpa [hc] using hj

/-- Witness for C1: a concrete operation with one 2xx JSON response and a
typed body, on which `isSimpleOperation` evaluates to true through the
characterisation. -/
theorem isSimpleOperation_correct_witness :
    isSimpleOperation
      { HasBody := true, HasTypedBody := true,
        Responses :=
          [{ StatusCode := "200",
             Contents := [{ ContentType := "application/json", IsJSON := true }] },
           { StatusCode := "404",
             Contents := [{ ContentType := "application/json", IsJSON := true }] }] } = true :=
  (isSimpleOperation_correct _).mpr
    ⟨by simp, fun _ => rfl,
     { StatusCode := "200",
       Contents := [{ ContentType := "application/json", IsJSON := true }] },
     { ContentType := "application/json", IsJSON := true },
     rfl, rfl, rfl⟩

/-- Claim C5: every registration method of the CodegenContext accumulator
(`AddImport`, `AddImportAlias`, `NeedHelper`, `NeedParam`,
`NeedCustomType`) is idempotent — calling it twice with the same argument
leaves the context in exactly the same state as calling it once. -/
theorem codegenContext_registration_idempotent (c : CodegenContext)
    (path al name style ct : String) (explode : Bool) :
    (c.AddImport path).AddImport path = c.AddImport path ∧
    (c.AddImportAlias path al).AddImportAlias path al = c.AddImportAlias path al ∧
    (c.NeedHelper name).NeedHelper name = c.NeedHelper name ∧
    (c.NeedParam style explode).NeedParam style explode = c.NeedParam style explode ∧
    (c.NeedCustomType ct).NeedCustomType ct = c.NeedCustomType ct := by
  refine ⟨?_, ?_, ?_, ?_, ?_⟩
  · by_cases h : path = "" <;> simp [CodegenContext.AddImport, h, mapSet_idem]
  · by_cases h : path = "" <;> simp [CodegenContext.AddImportAlias, h, mapSet_idem]
  · by_cases h : name = "" <;> simp [CodegenContext.NeedHelper, h, setAdd_idem]
  · simp only [CodegenContext.NeedParam]
    have hs : paramStyleKey "style_" style explode ∈
        setAdd (setAdd c.params (paramStyleKey "style_" style explode))
          (paramStyleKey "bind_" style explode) :=
      mem_setAdd_of_mem _ (mem_setAdd_self _ _)
    have hb : paramStyleKey "bind_" style explode ∈
        setAdd (setAdd c.params (paramStyleKey "style_" style explode))
          (paramStyleKey "bind_" style explode) :=
      mem_setAdd_self _ _
    simp [setAdd_eq_of_mem hs, setAdd_eq_of_mem hb]
  · by_cases h : ct = "" <;> simp [CodegenContext.NeedCustomType, h, setAdd_idem]

/-- Witness for C5: registering the `marshal_form` helper twice on the
fresh context equals registering it once. -/
theorem codegenContext_registration_idempotent_witness :
    (NewCodegenContext.NeedHelper "marshal_form").NeedHelper "marshal_form" =
      NewCodegenContext.NeedHelper "marshal_form" :=
  (codegenContext_registration_idempotent NewCodegenContext
    "encoding/json" "" "marshal_form" "simple" "date.tmpl" false).2.2.1

/-- Claim C4: the CodegenContext query methods (`RequiredHelpers`,
`RequiredParams`, `RequiredCustomTypes`) and the struct-tag formatter
(`FormatTagsMap`) return their collected entries in sorted order and
independently of registration order: contexts and tag maps holding the
same entries (in any order) produce identical results, which is what makes
two runs of resolution and generation on the same input byte-identical. -/
theorem resolution_queries_deterministic (c1 c2 : CodegenContext)
    (t1 t2 : List (String × String))
    (hh : c1.helpers.Perm c2.helpers) (hp : c1.params.Perm c2.params)
    (hct : c1.customTypes.Perm c2.customTypes) (ht : t1.Perm t2)
    (hnd : (t1.map Prod.fst).Nodup) :
    c1.RequiredHelpers.Sorted StrLeR ∧ c1.RequiredParams.Sorted StrLeR ∧
    c1.RequiredCustomTypes.Sorted StrLeR ∧ (tagNames t1).Sorted StrLeR ∧
    c1.RequiredHelpers = c2.RequiredHelpers ∧ c1.RequiredParams = c2.RequiredParams ∧
    c1.RequiredCustomTypes = c2.RequiredCustomTypes ∧
    FormatTagsMap t1 = FormatTagsMap t2 := by
  refine ⟨sortStrings_sorted _, sortStrings_sorted _, sortStrings_sorted _,
    sortStrings_sorted _, sortStrings_eq_of_perm hh, sortStrings_eq_of_perm hp,
    sortStrings_eq_of_perm hct, ?_⟩
  unfold FormatTagsMap
  have hemp : t1.isEmpty = t2.isEmpty := by
    have hl := ht.length_eq
    rcases t1 with _ | _ <;> rcases t2 with _ | _ <;> simp_all
  by_cases he : t1.isEmpty
  · rw [if_pos he, if_pos (hemp ▸ he)]
  · rw [if_neg he, if_neg (hemp ▸ he)]
    have hnames : tagNames t1 = tagNames t2 :=
      sortStrings_eq_of_perm (ht.map Prod.fst)
    have hparts :
        (tagNames t1).map (fun name => name ++ ":" ++ "\"" ++ mapLookup t1 name ++ "\"") =
        (tagNames t2).map (fun name => name ++ ":" ++ "\"" ++ mapLookup t2 name ++ "\"") := by
      rw [← hnames]
      exact List.map_congr_left fun a _ => by rw [mapLookup_eq_of_perm a ht hnd]
    rw [hparts]

/-- Witness for C4: two contexts holding the same helper/custom-type sets
in opposite registration order, and one tag map given in two orders,
yield sorted, identical query results. -/
theorem resolution_queries_deterministic_witness :
    (CodegenContext.mk [] ["form", "json"] [] []).RequiredHelpers.Sorted StrLeR ∧
    (CodegenContext.mk [] ["form", "json"] [] []).RequiredParams.Sorted StrLeR ∧
    (CodegenContext.mk [] ["form", "json"] [] []).RequiredCustomTypes.Sorted StrLeR ∧
    (tagNames [("json", "a"), ("form", "b")]).Sorted StrLeR ∧
    (CodegenContext.mk [] ["form", "json"] [] []).RequiredHelpers =
      (CodegenContext.mk [] ["json", "form"] [] []).RequiredHelpers ∧
    (CodegenContext.mk [] ["form", "json"] [] []).RequiredParams =
      (CodegenContext.mk [] ["json", "form"] [] []).RequiredParams ∧
    (CodegenContext.mk [] ["form", "json"] [] []).RequiredCustomTypes =
      (CodegenContext.mk [] ["json", "form"] [] []).RequiredCustomTypes ∧
    FormatTagsMap [("json", "a"), ("form", "b")] =
      FormatTagsMap [("form", "b"), ("json", "a")] :=
  resolution_queries_deterministic
    (CodegenContext.mk [] ["form", "json"] [] [])
    (CodegenContext.mk [] ["json", "form"] [] [])
    [("json", "a"), ("form", "b")] [("form", "b"), ("json", "a")]
    (by decide) (by decide) (by decide) (by decide) (by decide)

/-- Claim C9: an unparseable tag template never aborts generation —
`NewStructTagGenerator` silently drops each tag whose template fails to
parse while keeping the remaining tags, and `GenerateTags` silently skips
each tag whose template fails to render or renders empty, returning the
empty string when no tag survives. -/
theorem structTags_degrade_gracefully (engine : String → Option TemplateFn)
    (pre1 post1 : List StructTagTemplate) (bad : StructTagTemplate)
    (p1 p2 : List TagTemplate) (tg : TagTemplate)
    (g : StructTagGenerator) (info : StructTagInfo)
    (hbad : engine bad.Template = none)
    (htg : tg.tmpl info = none ∨ tg.tmpl info = some "")
    (hall : ∀ t ∈ g.templates, t.tmpl info = none ∨ t.tmpl info = some "") :
    NewStructTagGenerator engine ⟨pre1 ++ bad :: post1⟩ =
      NewStructTagGenerator engine ⟨pre1 ++ post1⟩ ∧
    (StructTagGenerator.mk (p1 ++ tg :: p2)).GenerateTags info =
      (StructTagGenerator.mk (p1 ++ p2)).GenerateTags info ∧
    g.GenerateTags info = "" := by
  have hgen : ∀ g9 : StructTagGenerator,
      g9.GenerateTags info =
        if (renderedTags g9 info).isEmpty then ""
        else "`" ++ String.intercalate " " (renderedTags g9 info) ++ "`" := by
    intro g9
    unfold StructTagGenerator.GenerateTags
    by_cases hg : g9.templates.isEmpty
    · have hts : g9.templates = [] := by
        rcases g9 with ⟨ts⟩; rcases ts with _ | _ <;> simp_all
      have hr : renderedTags g9 info = [] := by simp [renderedTags, hts]
      simp [hg, hr]
    · simp [hg]
  refine ⟨?_, ?_, ?_⟩
  · unfold NewStructTagGenerator
    simp [List.filterMap_append, List.filterMap_cons, hbad]
  · have hfm : renderedTags ⟨p1 ++ tg :: p2⟩ info = renderedTags ⟨p1 ++ p2⟩ info := by
      unfold renderedTags
      rcases htg with h | h <;>
        simp [List.filterMap_append, List.filterMap_cons, h]
    rw [hgen, hgen, hfm]
  · have hnil : renderedTags g info = [] := by
      unfold renderedTags
      rw [List.filterMap_eq_nil_iff]
      intro t ht
      rcases hall t ht with h | h <;> simp [h]
    rw [hgen, hnil]
    simp

/-- Witness for C9: a concrete engine that rejects the template source
`"bad"`, a tag whose render fails, and a generator whose single tag
renders empty. -/
theorem structTags_degrade_gracefully_witness :
    NewStructTagGenerator
        (fun s => if s = "bad" then none else some (fun i => some i.FieldName))
        ⟨[{ Name := "json", Template := "ok" }] ++ { Name := "yaml", Template := "bad" } :: []⟩ =
      NewStructTagGenerator
        (fun s => if s = "bad" then none else some (fun i => some i.FieldName))
        ⟨[{ Name := "json", Template := "ok" }] ++ []⟩ ∧
    (StructTagGenerator.mk
        ([] ++ { name := "form", tmpl := fun _ => none } :: [])).GenerateTags
        { FieldName := "id", IsOptional := false } =
      (StructTagGenerator.mk ([] ++ [])).GenerateTags
        { FieldName := "id", IsOptional := false } ∧
    (StructTagGenerator.mk [{ name := "x", tmpl := fun _ => some "" }]).GenerateTags
        { FieldName := "id", IsOptional := false } = "" :=
  structTags_degrade_gracefully
    (fun s => if s = "bad" then none else some (fun i => some i.FieldName))
    [{ Name := "json", Template := "ok" }] [] { Name := "yaml", Template := "bad" }
    [] [] { name := "form", tmpl := fun _ => none }
    ⟨[{ name := "x", tmpl := fun _ => some "" }]⟩
    { FieldName := "id", IsOptional := false }
    rfl (Or.inl rfl)
    (by
      intro t ht
      rw [List.mem_singleton] at ht
      subst ht
      exact Or.inr rfl)

/-- Claim C10: `GenerateRuntime` returns an error (and no output) exactly
when the base import path is empty; on every non-empty path on which no
template step fails it returns an output whose `Params`, `Types` and
`Helpers` fields are the (non-empty) generated sources, the params
sub-package being generated against the import path
`baseImportPath ++ "/types"`. -/
theorem generateRuntime_correct (genTypes : Except String String)
    (genParams : String → Except String String)
    (genHelpers : Except String String) (base tc pc hcode : String)
    (ht : genTypes = Except.ok tc)
    (hp : genParams (base ++ "/types") = Except.ok pc)
    (hhgen : genHelpers = Except.ok hcode)
    (htne : tc ≠ "") (hpne : pc ≠ "") (hcne : hcode ≠ "") :
    ((∃ e, GenerateRuntime genTypes genParams genHelpers base = Except.error e) ↔
      base = "") ∧
    (base ≠ "" →
      GenerateRuntime genTypes genParams genHelpers base =
        Except.ok { Params := pc, Types := tc, Helpers := hcode } ∧
      pc ≠ "" ∧ tc ≠ "" ∧ hcode ≠ "") := by
  unfold GenerateRuntime
  by_cases hb : base = ""
  · rw [if_pos hb]
    exact ⟨⟨fun _ => hb, fun _ => ⟨_, rfl⟩⟩, fun h => absurd hb h⟩
  · rw [if_neg hb, ht, hp, hhgen]
    refine ⟨⟨?_, fun h => absurd h hb⟩, fun _ => ⟨rfl, hpne, htne, hcne⟩⟩
    rintro ⟨e, he⟩
    simp at he

/-- Witness for C10: concrete sub-generator results on a concrete
non-empty base import path. -/
theorem generateRuntime_correct_witness :
    ((∃ e, GenerateRuntime (Except.ok "package types")
        (fun _ => Except.ok "package params")
        (Except.ok "package helpers") "example.com/runtime" = Except.error e) ↔
      "example.com/runtime" = "") ∧
    ("example.com/runtime" ≠ "" →
      GenerateRuntime (Except.ok "package types")
          (fun _ => Except.ok "package params")
          (Except.ok "package helpers") "example.com/runtime" =
        Except.ok { Params := "package params", Types := "package types",
                    Helpers := "package helpers" } ∧
      ("package params" : String) ≠ "" ∧ ("package types" : String) ≠ "" ∧
      ("package helpers" : String) ≠ "") :=
  generateRuntime_correct (Except.ok "package types")
    (fun _ => Except.ok "package params") (Except.ok "package helpers")
    "example.com/runtime" "package types" "package params" "package helpers"
    rfl rfl rfl (by decide) (by decide) (by decide)

/-! ## Name resolver lemmas -/

theorem resolveNames_three_same (d1 d2 d3 : NameDescriptor) (b : String)
    (hs2 : d2.sect = d1.sect) (hs3 : d3.sect = d1.sect)
    (h1 : baseName d1 = b) (h2 : baseName d2 = b) (h3 : baseName d3 = b) :
    resolveNames [d1, d2, d3] = [b ++ "1", b ++ "2", b ++ "3"] := by
  have r1 : Nat.repr 1 = "1" := by decide
  have r2 : Nat.repr 2 = "2" := by decide
  have r3 : Nat.repr 3 = "3" := by decide
  unfold resolveNames
  simp [resolveNamesAux, countSameBase, List.filter_cons, hs2, hs3, h1, h2, h3,
    r1, r2, r3]

theorem resolveNames_three_diff_sections (c d e : NameDescriptor)
    (hcd : c.sect ≠ d.sect) (hce : c.sect ≠ e.sect) (hde : d.sect ≠ e.sect) :
    resolveNames [c, d, e] = [baseName c, baseName d, baseName e] := by
  have hdc : ¬ (d.sect = c.sect) := fun h => hcd h.symm
  have hec : ¬ (e.sect = c.sect) := fun h => hce h.symm
  have hed : ¬ (e.sect = d.sect) := fun h => hde h.symm
  unfold resolveNames
  simp [resolveNamesAux, countSameBase, List.filter_cons, hcd, hce, hde, hdc, hec, hed]

/-- Claim C2: three request-body content types under one operation that
all reduce to the short token "JSON" (`application/json`,
`application/merge-patch+json`, `application/json-patch+json`, declared
in that order) resolve to three distinct final names carrying numeric
suffixes 1, 2, 3 in declaration order, with no un-suffixed variant of the
colliding base name among them. -/
theorem numericSuffixSymmetry (opID : String) :
    resolveNames
        [requestBodyDescriptor opID none "application/json",
         requestBodyDescriptor opID none "application/merge-patch+json",
         requestBodyDescriptor opID none "application/json-patch+json"] =
      [mangleName opID ++ "JSONRequest" ++ "1",
       mangleName opID ++ "JSONRequest" ++ "2",
       mangleName opID ++ "JSONRequest" ++ "3"] ∧
    (resolveNames
        [requestBodyDescriptor opID none "application/json",
         requestBodyDescriptor opID none "application/merge-patch+json",
         requestBodyDescriptor opID none "application/json-patch+json"]).Nodup ∧
    (mangleName opID ++ "JSONRequest") ∉
      resolveNames
        [requestBodyDescriptor opID none "application/json",
         requestBodyDescriptor opID none "application/merge-patch+json",
         requestBodyDescriptor opID none "application/json-patch+json"] := by
  have heq : resolveNames
      [requestBodyDescriptor opID none "application/json",
       requestBodyDescriptor opID none "application/merge-patch+json",
       requestBodyDescriptor opID none "application/json-patch+json"] =
      [mangleName opID ++ "JSONRequest" ++ "1",
       mangleName opID ++ "JSONRequest" ++ "2",
       mangleName opID ++ "JSONRequest" ++ "3"] :=
    resolveNames_three_same _ _ _ (mangleName opID ++ "JSONRequest") rfl rfl rfl rfl rfl
  have hne : ∀ x y : String, x ≠ y →
      mangleName opID ++ "JSONRequest" ++ x ≠ mangleName opID ++ "JSONRequest" ++ y :=
    fun x y hxy h => hxy (strAppendLeftCancel h)
  refine ⟨heq, ?_, ?_⟩
  · rw [heq]
    refine List.nodup_cons.mpr ⟨?_, List.nodup_cons.mpr ⟨?_,
      List.nodup_cons.mpr ⟨?_, List.nodup_nil⟩⟩⟩
    · intro h
      rcases List.mem_cons.mp h with h | h
      · exact hne "1" "2" (by decide) h
      rcases List.mem_cons.mp h with h | h
      · exact hne "1" "3" (by decide) h
      · cases h
    · intro h
      rcases List.mem_cons.mp h with h | h
      · exact hne "2" "3" (by decide) h
      · cases h
    · intro h
      cases h
  · rw [heq]
    intro hmem
    rcases List.mem_cons.mp hmem with h | hmem
    · exact strNeAppendOfTailNe _ "1" (by decide) h
    rcases List.mem_cons.mp hmem with h | hmem
    · exact strNeAppendOfTailNe _ "2" (by decide) h
    rcases List.mem_cons.mp hmem with h | hmem
    · exact strNeAppendOfTailNe _ "3" (by decide) h
    · cases hmem

/-- Witness for C2: the `createOrder` operation of the multiple-JSON
content-type test resolves to `CreateOrderJSONRequest1/2/3` with no bare
`CreateOrderJSONRequest` variant. -/
theorem numericSuffixSymmetry_witness :
    resolveNames
        [requestBodyDescriptor "createOrder" none "application/json",
         requestBodyDescriptor "createOrder" none "application/merge-patch+json",
         requestBodyDescriptor "createOrder" none "application/json-patch+json"] =
      ["CreateOrderJSONRequest1", "CreateOrderJSONRequest2", "CreateOrderJSONRequest3"] :=
  ((numericSuffixSymmetry "createOrder").1).trans (by decide)

/-- Claim C7: a named component schema keeps its bare mangled name while
inline request-body and response schemas — even ones that would naturally
carry the same raw name — are assigned operationID-derived names
(operationID plus the "…Request" / "…Response" role suffix); the
component schema always wins the bare name in its section. -/
theorem bareNamePriority (compName opID : String) (rawB rawR : Option String)
    (ctB ctR : String) :
    resolveNames
        [componentSchemaDescriptor compName,
         requestBodyDescriptor opID rawB ctB,
         responseDescriptor opID rawR ctR] =
      [mangleName compName,
       mangleName opID ++ (contentTypeShortToken ctB ++ "Request"),
       mangleName opID ++ (contentTypeShortToken ctR ++ "Response")] := by
  have h := resolveNames_three_diff_sections (componentSchemaDescriptor compName)
    (requestBodyDescriptor opID rawB ctB) (responseDescriptor opID rawR ctR)
    (by simp [componentSchemaDescriptor, requestBodyDescriptor])
    (by simp [componentSchemaDescriptor, responseDescriptor])
    (by simp [requestBodyDescriptor, responseDescriptor])
  simpa [baseName, componentSchemaDescriptor, requestBodyDescriptor,
    responseDescriptor] using h

/-- Witness for C7: component schema `Bar` together with the inline
`postFoo` JSON request body and JSON response — both sharing the raw name
`Bar` — resolve to `Bar`, `PostFooJSONRequest` and `PostFooJSONResponse`. -/
theorem bareNamePriority_witness :
    resolveNames
        [componentSchemaDescriptor "Bar",
         requestBodyDescriptor "postFoo" (some "Bar") "application/json",
         responseDescriptor "postFoo" (some "Bar") "application/json"] =
      ["Bar", "PostFooJSONRequest", "PostFooJSONResponse"] :=
  (bareNamePriority "Bar" "postFoo" (some "Bar") (some "Bar")
    "application/json" "application/json").trans (by decide)

/-- Claim C3: a `oneOf`/`anyOf` with exactly two members, one the literal
`null` type and the other a reference or inline object, resolves to a
`NullableWrapper` around the non-null member — a single nullable shape —
and never to a two-member tagged union. -/
theorem nullableCollapse (p : String) :
    resolveOneOf [SchemaMember.ref p, SchemaMember.nullType] =
      Shape.nullableWrapper (SchemaMember.ref p) ∧
    resolveOneOf [SchemaMember.nullType, SchemaMember.ref p] =
      Shape.nullableWrapper (SchemaMember.ref p) ∧
    resolveOneOf [SchemaMember.inlineObject p, SchemaMember.nullType] =
      Shape.nullableWrapper (SchemaMember.inlineObject p) ∧
    resolveOneOf [SchemaMember.nullType, SchemaMember.inlineObject p] =
      Shape.nullableWrapper (SchemaMember.inlineObject p) ∧
    ∀ ms, resolveOneOf [SchemaMember.ref p, SchemaMember.nullType] ≠
      Shape.unionWrapper ms := by
  refine ⟨rfl, ?_, rfl, ?_, ?_⟩
  · simp [resolveOneOf, isRefOrInlineObject]
  · simp [resolveOneOf, isRefOrInlineObject]
  · intro ms h
    rw [show resolveOneOf [SchemaMember.ref p, SchemaMember.nullType] =
        Shape.nullableWrapper (SchemaMember.ref p) from rfl] at h
    cases h

/-- Witness for C3: the `oneOf: [$ref: SimpleObject, type: null]` pattern
resolves to the nullable wrapper around the reference. -/
theorem nullableCollapse_witness :
    resolveOneOf [SchemaMember.ref "#/components/schemas/SimpleObject",
        SchemaMember.nullType] =
      Shape.nullableWrapper (SchemaMember.ref "#/components/schemas/SimpleObject") :=
  (nullableCollapse "#/components/schemas/SimpleObject").1

/-- Claim C6: whenever a `oneOf`/`anyOf` resolves to a union, members that
resolve to the identical underlying schema (compared by structural path)
are collapsed before naming: the final union shape carries no duplicate
resolved targets, and every original member's target is still represented
by exactly one surviving entry. -/
theorem unionDedupNoDuplicates (ms ws : List SchemaMember)
    (h : resolveOneOf ms = Shape.unionWrapper ws) :
    (ws.map memberPath).Nodup ∧
    ∀ m ∈ ms, memberPath m ∈ ws.map memberPath := by
  have hws : ws = dedupMembers ms := by
    unfold resolveOneOf at h
    split at h
    · split at h
      · cases h
      · exact (Shape.unionWrapper.injEq _ _ ▸ h).symm
    · split at h
      · cases h
      · exact (Shape.unionWrapper.injEq _ _ ▸ h).symm
    · exact (Shape.unionWrapper.injEq _ _ ▸ h).symm
  subst hws
  exact ⟨dedupMembers_nodup ms, dedupMembers_complete ms⟩

/-- Witness for C6: two `oneOf` members referencing the same structural
path collapse to a single union member. -/
theorem unionDedupNoDuplicates_witness :
    ((dedupMembers [SchemaMember.ref "#/a", SchemaMember.ref "#/a",
        SchemaMember.primitive "#/b"]).map memberPath).Nodup ∧
    ∀ m ∈ [SchemaMember.ref "#/a", SchemaMember.ref "#/a",
        SchemaMember.primitive "#/b"],
      memberPath m ∈ (dedupMembers [SchemaMember.ref "#/a", SchemaMember.ref "#/a",
        SchemaMember.primitive "#/b"]).map memberPath :=
  unionDedupNoDuplicates
    [SchemaMember.ref "#/a", SchemaMember.ref "#/a", SchemaMember.primitive "#/b"]
    (dedupMembers [SchemaMember.ref "#/a", SchemaMember.ref "#/a",
      SchemaMember.primitive "#/b"]) rfl

/-- Claim C8: a built content descriptor is sequential exactly when its
media type is one of the sequential types of the content-type matcher;
when sequential and an `itemSchema` is declared, `ItemSchema` is a
distinct schema descriptor carrying the item's own declared properties,
separate from the envelope schema; when not sequential, `ItemSchema` is
`none`. -/
theorem sequentialItemSchemaIndependence (decl : DeclaredContent) :
    ((buildContentDescriptor decl).IsSequential = true ↔
      decl.contentType ∈ sequentialMediaTypes) ∧
    (∀ props, decl.itemProperties = some props →
      IsSequentialMediaType decl.contentType = true →
      ∃ item, (buildContentDescriptor decl).ItemSchema = some item ∧
        item.properties = props ∧
        item.path ≠ (buildContentDescriptor decl).Schema.path) ∧
    ((buildContentDescriptor decl).IsSequential = false →
      (buildContentDescriptor decl).ItemSchema = none) := by
  refine ⟨?_, ?_, ?_⟩
  · simp [buildContentDescriptor, IsSequentialMediaType, List.contains, List.elem_iff]
  · intro props hprops hseq
    refine ⟨{ path := decl.basePath ++ "/itemSchema", properties := props }, ?_, rfl, ?_⟩
    · simp [buildContentDescriptor, hseq, hprops]
    · intro h
      have : ("/itemSchema" : String) = "/schema" :=
        strAppendLeftCancel (a := decl.basePath) (by simpa [buildContentDescriptor] using h)
      exact absurd this (by decide)
  · intro hseq
    simp only [buildContentDescriptor] at hseq ⊢
    simp only [hseq]
    simp

/-- Witness for C8: a `text/event-stream` response with a declared
`itemSchema` yields a sequential descriptor whose item schema carries the
item's own properties at its own path. -/
theorem sequentialItemSchemaIndependence_witness :
    ((buildContentDescriptor
        { contentType := "text/event-stream", basePath := "#/paths/events/get/200",
          schemaProperties := [], itemProperties := some ["id", "message"] }).IsSequential = true ↔
      "text/event-stream" ∈ sequentialMediaTypes) ∧
    (∀ props,
      ({ contentType := "text/event-stream", basePath := "#/paths/events/get/200",
         schemaProperties := [], itemProperties := some ["id", "message"] } :
          DeclaredContent).itemProperties = some props →
      IsSequentialMediaType "text/event-stream" = true →
      ∃ item, (buildContentDescriptor
          { contentType := "text/event-stream", basePath := "#/paths/events/get/200",
            schemaProperties := [], itemProperties := some ["id", "message"] }).ItemSchema =
          some item ∧
        item.properties = props ∧
        item.path ≠ (buildContentDescriptor
          { contentType := "text/event-stream", basePath := "#/paths/events/get/200",
            schemaProperties := [], itemProperties := some ["id", "message"] }).Schema.path) ∧
    ((buildContentDescriptor
        { contentType := "text/event-stream", basePath := "#/paths/events/get/200",
          schemaProperties := [], itemProperties := some ["id", "message"] }).IsSequential = false →
      (buildContentDescriptor
        { contentType := "text/event-stream", basePath := "#/paths/events/get/200",
          schemaProperties := [], itemProperties := some ["id", "message"] }).ItemSchema = none) :=
  sequentialItemSchemaIndependence
    { contentType := "text/event-stream", basePath := "#/paths/events/get/200",
      schemaProperties := [], itemProperties := some ["id", "message"] }
